import Mathlib

/-!
Verification development for a patent crawl-and-ingest pipeline.

The repository consists of:
  * `getlinks_final.py` — the checkpointed crawl controller (`getLinks`) driven by
    the scheduler, with a durable link log (`patent_urls.txt`) and a checkpoint
    file (`recent_scraping_state.txt`);
  * `getlinks_1.py` — an older crawl controller variant (`scrape_date_range`)
    whose retry loop recreates the browser session between attempts;
  * `working.py` — the per-identifier ingestion pipeline (`main`,
    `clean_html_content`, `extract_patent_info_with_llm`);
  * `ipfs_handler.py` — the content store (`IPFSHandler.save_and_upload` and
    friends) implementing the two-phase self-describing addressing scheme.

The definitions below are a shallow embedding of those functions: file contents
are lists of lines or strings, the browser fetch is an oracle
`page → attempt → Option tokens`, external HTTP services are explicit state, and
each run is bounded by explicit fuel (the Python loops are `while True` loops
that terminate through their data; fuel exhaustion returns the state unchanged
and is never hit in the concrete instances below).
-/

set_option maxRecDepth 10000

/-! ## Generic helpers: order-preserving deduplication (Python `dict.fromkeys`) -/

/-- Order-preserving removal of duplicates, keeping the first occurrence of each
element, exactly like Python's `list(dict.fromkeys(l))`
(`getlinks_final.py` line 134, `getlinks_1.py` line 96). -/
def dedupKeepFirst {α : Type} [DecidableEq α] : List α → List α
  | [] => []
  | a :: l => a :: (dedupKeepFirst l).filter (fun x => decide (x ≠ a))

/-! ## Character and string helpers

Lean 4.14 strings are wrappers around `List Char`; the helpers below work on
the underlying character list with structural recursion so that all concrete
instances reduce inside the kernel. -/

/-- Splits a character list at every occurrence of `sep`, like Python's
`str.split(sep)` for a one-character separator. -/
def splitOnChar (sep : Char) : List Char → List (List Char)
  | [] => [[]]
  | a :: rest =>
    match splitOnChar sep rest with
    | [] => [[]]
    | grp :: gs => if a = sep then [] :: grp :: gs else (a :: grp) :: gs

/-- Whitespace recognized by Python's `str.strip()` (the subset that can occur
in the files at hand). -/
def isSpaceChar (c : Char) : Bool :=
  c == ' ' || c == '\t' || c == '\n' || c == '\r'

/-- Removes leading and trailing whitespace, like Python's `str.strip()`. -/
def trimChars (cs : List Char) : List Char :=
  ((cs.dropWhile isSpaceChar).reverse.dropWhile isSpaceChar).reverse

/-- `str.strip()` on a whole string. -/
def trimS (s : String) : String := ⟨trimChars s.data⟩

/-- Parses a non-empty all-digit string into a number, like Python's `int(s)`
on the checkpoint page field (Python's `int` additionally tolerates
surrounding whitespace, a sign and digit-group underscores; the checkpoint
writer only ever emits plain digit runs). -/
def digitsToNat? (cs : List Char) : Option Nat :=
  if !cs.isEmpty && cs.all Char.isDigit then
    some (cs.foldl (fun a c => a * 10 + (c.toNat - 48)) 0)
  else
    none

/-- Decimal digits of `n`, most significant first; the first argument is
structural fuel (`n + 1` always suffices). -/
def natToDigitsAux : Nat → Nat → List Char
  | 0, _ => []
  | fuel + 1, n =>
    if n < 10 then [Char.ofNat (48 + n)]
    else natToDigitsAux fuel (n / 10) ++ [Char.ofNat (48 + n % 10)]

/-- Decimal rendering of a natural number, like Python's `str(n)` / `"%d"`. -/
def natToDigits (n : Nat) : List Char := natToDigitsAux (n + 1) n

/-- Zero-pads a digit run on the left to width `w` (`strftime`'s `%m`/`%d`/`%Y`
field padding). -/
def padLeft (w : Nat) (cs : List Char) : List Char :=
  List.replicate (w - cs.length) '0' ++ cs

/-- Joins normalized lines with a newline
(`'\n'.join(...)` in `working.py` lines 147 and 152). -/
def joinLines (ls : List (List Char)) : List Char :=
  List.intercalate ['\n'] ls

/-- `'\n'.join(line.strip() for line in s.splitlines() if line.strip())`:
splits into lines, strips each, and drops blank lines
(`working.py` lines 147 and 152). -/
def normalizeText (s : String) : String :=
  ⟨joinLines (((splitOnChar '\n' s.data).map trimChars).filter (fun l => l ≠ []))⟩

/-! ## Dates and the crawl checkpoint file (`getlinks_final.py` lines 56-68)

Python `datetime` values carry a calendar date plus a time of day.
`save_scraping_state` persists only `strftime('%Y-%m-%d')` — the calendar
date — while `load_scraping_state` parses it back with
`strptime('%Y-%m-%d')`, which yields midnight. The `tod` field models the
time-of-day component (in microseconds, say); it participates in `datetime`
equality but is dropped by the round trip through the checkpoint file. -/

structure DateTime where
  year : Nat
  month : Nat
  day : Nat
  tod : Nat
  deriving DecidableEq, Repr

/-- `date.strftime('%Y-%m-%d')`. -/
def formatDate (d : DateTime) : String :=
  ⟨padLeft 4 (natToDigits d.year) ++
    '-' :: padLeft 2 (natToDigits d.month) ++
    '-' :: padLeft 2 (natToDigits d.day)⟩

/-- `date.strftime('%Y%m%d')` (used only inside search URLs). -/
def formatDateCompact (d : DateTime) : String :=
  ⟨padLeft 4 (natToDigits d.year) ++ padLeft 2 (natToDigits d.month) ++
    padLeft 2 (natToDigits d.day)⟩

/-- `save_scraping_state(date, page_num)` (`getlinks_final.py` lines 56-59):
the single-line content written to `recent_scraping_state.txt`. -/
def save_scraping_state (date : DateTime) (page_num : Nat) : String :=
  formatDate date ++ "," ++ ⟨natToDigits page_num⟩

/-- `datetime.strptime(s, '%Y-%m-%d')`: three dash-separated digit fields with
calendar-range validation (approximated as `1 ≤ month ≤ 12`, `1 ≤ day ≤ 31`);
anything else raises `ValueError`, modelled as `none`. -/
def parseDate (cs : List Char) : Option (Nat × Nat × Nat) :=
  match splitOnChar '-' cs with
  | [ys, ms, ds] =>
    match digitsToNat? ys, digitsToNat? ms, digitsToNat? ds with
    | some y, some m, some d =>
      if 1 ≤ m ∧ m ≤ 12 ∧ 1 ≤ d ∧ d ≤ 31 then some (y, m, d) else none
    | _, _, _ => none
  | _ => none

/-- One line of `recent_scraping_state.txt`:
`date_str, page_num = content.strip().split(",")` followed by
`strptime(date_str, "%Y-%m-%d")` and `int(page_num)`; `none` models the
`ValueError` thrown on malformed content. A parsed date always has
`tod = 0` (midnight), since only the calendar date was persisted. -/
def parseStateLine (content : String) : Option (DateTime × Nat) :=
  match splitOnChar ',' (trimChars content.data) with
  | [a, b] =>
    match parseDate a, digitsToNat? b with
    | some (y, m, d), some p => some (⟨y, m, d, 0⟩, p)
    | _, _ => none
  | _ => none

/-- `load_scraping_state()` (`getlinks_final.py` lines 61-68). The argument is
the content of `recent_scraping_state.txt`, or `none` when the file does not
exist. Only `FileNotFoundError` is caught (returning `(None, 0)`); malformed
content raises an uncaught `ValueError`, modelled as `Except.error`. -/
def load_scraping_state (content : Option String) :
    Except Unit (Option DateTime × Nat) :=
  match content with
  | none => Except.ok (none, 0)
  | some c =>
    match parseStateLine c with
    | some (d, p) => Except.ok (some d, p)
    | none => Except.error ()

/-! ## LinkStore: the durable identifier log (`patent_urls.txt`)

`load_existing_patents` reads the log into an in-memory set;
`save_new_patents` appends the not-yet-present entries. The state carries both
the persisted file (a list of lines, order preserved) and the in-memory set
(membership is all that is used of it, so a list is a faithful model). -/

structure LinkState where
  file : List String
  existing : List String
  deriving DecidableEq, Repr

/-- `f"https://patents.google.com/patent/{patent_number}"`
(`getlinks_final.py` line 137). -/
def toLink (patent_number : String) : String :=
  "https://patents.google.com/patent/" ++ patent_number

/-- Per-page dedup then URL construction (`getlinks_final.py` lines 134-137):
`list(dict.fromkeys(patent_numbers))` mapped through `toLink`. -/
def pageLinks (tokens : List String) : List String :=
  (dedupKeepFirst tokens).map toLink

/-- `[link for link in patent_links if link not in existing_patents]`
(`getlinks_final.py` line 140). -/
def newPatentsOf (existing : List String) (tokens : List String) : List String :=
  (pageLinks tokens).filter (fun l => decide (l ∉ existing))

/-- `save_new_patents(new_patents, existing_patents)`
(`getlinks_final.py` lines 45-49): appends to the log every entry of
`new_patents` not already in `existing_patents`, one line each. -/
def save_new_patents (file : List String) (existing : List String)
    (new_patents : List String) : List String :=
  file ++ new_patents.filter (fun p => decide (p ∉ existing))

/-- One non-empty result page's effect on the link store
(`getlinks_final.py` lines 133-150): dedup the page's tokens, build URLs,
filter against the known set, append the remainder to the log
(`save_new_patents`) and update the in-memory set
(`existing_patents.update(new_patents)`). -/
def linkStep (s : LinkState) (tokens : List String) : LinkState :=
  let new := newPatentsOf s.existing tokens
  { file := save_new_patents s.file s.existing new
    existing := s.existing ++ new }

/-! ## The crawl controller (`getlinks_final.py` `getLinks`) -/

/-- `MAX_RETRIES` (`getlinks_final.py` line 31). -/
def MAX_RETRIES : Nat := 3

/-- `PAGE_LOAD_DELAY` in seconds (`getlinks_final.py` line 29). -/
def PAGE_LOAD_DELAY : Nat := 15

/-- `BETWEEN_PAGES_DELAY` in seconds (`getlinks_final.py` line 30). -/
def BETWEEN_PAGES_DELAY : Nat := 10

/-- `no_of_results` (`getlinks_final.py` line 27). -/
def no_of_results : Nat := 100

/-- `construct_url(page_num, start_date, end_date)`
(`getlinks_final.py` lines 51-54). -/
def construct_url (page_num : Nat) (start_date end_date : DateTime) : String :=
  "https://patents.google.com/?country=US&before=publication:" ++
    formatDateCompact end_date ++ "&after=publication:" ++
    formatDateCompact start_date ++ "&language=ENGLISH&type=PATENT&num=" ++
    (⟨natToDigits no_of_results⟩ : String) ++ "&dups=language&page=" ++
    (⟨natToDigits page_num⟩ : String)

/-- Observable events of a crawl run. `recreateSession` models tearing down
and reinitializing the WebDriver (emitted only by `getlinks_1.py`;
`getlinks_final.py` creates its driver once and never recreates it). -/
inductive Ev where
  | fetchAttempt (page : Nat)
  | sleepSec (n : Nat)
  | appendIds (page : Nat) (ids : List String)
  | checkpointWrite (page : Nat)
  | recreateSession
  | abandoned
  | windowDone
  deriving DecidableEq, Repr

/-- Full crawl-controller state: the link store plus the checkpoint file
content (`recent_scraping_state.txt`, `none` if absent). -/
structure CrawlState where
  links : LinkState
  stateFile : Option String
  deriving DecidableEq, Repr

/-- The inner retry loop of `getLinks` (`getlinks_final.py` lines 109-126):
up to `budget` attempts at one page; a failed non-final attempt sleeps
`PAGE_LOAD_DELAY` and retries, and the final failure re-raises (result
`none`). `fetch page attempt` is the rendered page's identifier tokens
(`re.findall(r"US\d{1,11}", html)`), or `none` when the attempt throws. -/
def attemptPage (fetch : Nat → Nat → Option (List String)) (page : Nat) :
    Nat → Nat → Option (List String) × List Ev
  | _, 0 => (none, [])
  | attempt, budget + 1 =>
    match fetch page attempt with
    | some tokens => (some tokens, [Ev.fetchAttempt page])
    | none =>
      if budget = 0 then (none, [Ev.fetchAttempt page])
      else
        let r := attemptPage fetch page (attempt + 1) budget
        (r.1, Ev.fetchAttempt page :: Ev.sleepSec PAGE_LOAD_DELAY :: r.2)

/-- The retry loop entered with `retry_count = 0` and budget `MAX_RETRIES`. -/
def retryPage (fetch : Nat → Nat → Option (List String)) (page : Nat) :
    Option (List String) × List Ev :=
  attemptPage fetch page 0 MAX_RETRIES

/-- The main pagination loop of `getLinks` (`getlinks_final.py` lines
103-161), starting at page index `page`. A page whose retry loop re-raises
aborts the window (the exception is caught at line 164; no state is touched).
An empty token list breaks the loop (`windowDone`). Otherwise the page's new
identifiers are appended to the log, the checkpoint is overwritten with
`(start_date, page)`, and the loop advances to `page + 1` after the
between-pages delay. -/
def crawlLoop (fetch : Nat → Nat → Option (List String)) (startDate : DateTime) :
    CrawlState → Nat → Nat → CrawlState × List Ev
  | s, _, 0 => (s, [])
  | s, page, fuel + 1 =>
    match retryPage fetch page with
    | (none, evs) => (s, evs ++ [Ev.abandoned])
    | (some tokens, evs) =>
      if tokens = [] then (s, evs ++ [Ev.windowDone])
      else
        let new := newPatentsOf s.links.existing tokens
        let s' : CrawlState :=
          { links := linkStep s.links tokens
            stateFile := some (save_scraping_state startDate page) }
        let r := crawlLoop fetch startDate s' (page + 1) fuel
        (r.1,
          evs ++ Ev.appendIds page new :: Ev.checkpointWrite page ::
            Ev.sleepSec BETWEEN_PAGES_DELAY :: r.2)

/-- Initial crawl state: `load_existing_patents()` reads the whole log into
the in-memory set (`getlinks_final.py` lines 39-43, 92). -/
def initCrawlState (urlLines : List String) (stateFile : Option String) :
    CrawlState :=
  { links := { file := urlLines, existing := urlLines }, stateFile := stateFile }

/-- `getLinks()` (`getlinks_final.py` lines 79-171). `load_scraping_state` is
called before the `try` block, so a malformed checkpoint file propagates its
`ValueError` out of `getLinks` (modelled as `Except.error`) before any page is
fetched. The saved state is honored — the loop starts at the *saved* page
index — only when the parsed date equals `start_date` exactly (`if last_date
and last_date == start_date`); otherwise pagination starts at page 0. -/
def getLinks (fetch : Nat → Nat → Option (List String)) (urlLines : List String)
    (stateFile : Option String) (start_date : DateTime) (fuel : Nat) :
    Except Unit (CrawlState × List Ev) :=
  match load_scraping_state stateFile with
  | Except.error e => Except.error e
  | Except.ok (last_date, page_num) =>
    let page := if last_date = some start_date then page_num else 0
    Except.ok (crawlLoop fetch start_date (initCrawlState urlLines stateFile) page fuel)

/-- Page indices of all fetch attempts in a trace. -/
def pagesFetched (evs : List Ev) : List Nat :=
  evs.filterMap fun e =>
    match e with
    | Ev.fetchAttempt p => some p
    | _ => none

/-- Checks that every `checkpointWrite p` in the trace is preceded by an
`appendIds p` (the page's identifiers were durably appended before the
checkpoint advanced). `seen` accumulates the pages already appended. -/
def ckptCovered : List Ev → List Nat → Bool
  | [], _ => true
  | Ev.appendIds p _ :: rest, seen => ckptCovered rest (seen ++ [p])
  | Ev.checkpointWrite p :: rest, seen => seen.contains p && ckptCovered rest seen
  | _ :: rest, seen => ckptCovered rest seen

/-- Event trace of a crawl run (`[]` when the run aborted before crawling). -/
def crawlEvsOf : Except Unit (CrawlState × List Ev) → List Ev
  | Except.ok r => r.2
  | Except.error _ => []

/-- Final checkpoint-file content of a crawl run. -/
def finalCheckpoint : Except Unit (CrawlState × List Ev) → Option String
  | Except.ok r => r.1.stateFile
  | Except.error _ => none

/-- `true` iff the run returned normally (no uncaught exception). -/
def crawlOk : Except Unit (CrawlState × List Ev) → Bool
  | Except.ok _ => true
  | Except.error _ => false

/-! ## The older controller variant (`getlinks_1.py` `scrape_date_range`)

Its retry loop (lines 84-128) recreates the WebDriver session after each
failed attempt *except the last* — i.e. between attempts, within the fixed
budget of `max_retries = 3` — and gives up on the window after the final
failed attempt. It keeps no per-page checkpoint. -/

/-- The `for retry in range(max_retries)` loop of `scrape_date_range`:
on failure with retries left, recreate the session and sleep 5 seconds;
on the final failure return (window abandoned). -/
def retryPageG1 (fetch : Nat → Nat → Option (List String)) (page : Nat) :
    Nat → Nat → Option (List String) × List Ev
  | _, 0 => (none, [])
  | attempt, budget + 1 =>
    match fetch page attempt with
    | some tokens => (some tokens, [Ev.fetchAttempt page])
    | none =>
      if budget = 0 then (none, [Ev.fetchAttempt page])
      else
        let r := retryPageG1 fetch page (attempt + 1) budget
        (r.1, Ev.fetchAttempt page :: Ev.recreateSession :: Ev.sleepSec 5 :: r.2)

/-- `scrape_date_range` pagination (`getlinks_1.py` lines 73-130): same
dedup-and-append processing per page, a 15-second delay between pages, no
checkpoint; an empty page or an exhausted retry budget returns. -/
def scrape_date_range (fetch : Nat → Nat → Option (List String)) :
    LinkState → Nat → Nat → LinkState × List Ev
  | s, _, 0 => (s, [])
  | s, page, fuel + 1 =>
    match retryPageG1 fetch page 0 3 with
    | (none, evs) => (s, evs ++ [Ev.abandoned])
    | (some tokens, evs) =>
      if tokens = [] then (s, evs ++ [Ev.windowDone])
      else
        let s' := linkStep s tokens
        let r := scrape_date_range fetch s' (page + 1) fuel
        (r.1, evs ++ Ev.sleepSec 15 :: r.2)

/-! ## Extraction engine (`working.py` `clean_html_content`,
`extract_patent_info_with_llm`)

A `Page` is the rendered document as seen by the parser: for each locator
(`soup.find(...)`) the text of the found element (`none` when the locator
misses), plus the full-body text produced by the `html2text` converter. A
failed fetch/render (the `except` at `working.py` line 167) is `none` at the
`Option Page` level. -/

structure Page where
  title : Option String
  abstract : Option String
  inventor : Option String
  assigneeCurrent : Option String
  assigneeOriginal : Option String
  filingDate : Option String
  claims : Option String
  fullText : String
  deriving DecidableEq, Repr

/-- The dictionary built by `clean_html_content` (`working.py` lines 155-164). -/
structure RawPatent where
  patent_title : String
  abstract : String
  inventor_name : String
  assignee_name : String
  filing_date : String
  claims_text : Option String
  patent_text : String
  deriving DecidableEq, Repr

/-- `clean_html_content(url)` (`working.py` lines 100-169): returns `none`
exactly when the page could not be fetched/rendered; otherwise every missing
field degrades to the `'N/A'` sentinel, and the assignee tries the current
assignee first, falls back to the original assignee, else the sentinel. -/
def clean_html_content (fetched : Option Page) : Option RawPatent :=
  match fetched with
  | none => none
  | some pg =>
    some
      { patent_title := match pg.title with | some t => trimS t | none => "N/A"
        abstract := match pg.abstract with | some t => trimS t | none => "N/A"
        inventor_name := match pg.inventor with | some t => trimS t | none => "N/A"
        assignee_name :=
          match pg.assigneeCurrent with
          | some t => trimS t
          | none =>
            match pg.assigneeOriginal with
            | some t => trimS t
            | none => "N/A"
        filing_date := match pg.filingDate with | some t => trimS t | none => "N/A"
        claims_text := pg.claims.map normalizeText
        patent_text := normalizeText pg.fullText }

/-- The per-identifier record assembled by `extract_patent_info_with_llm`
(`working.py` lines 171-192), fields in the dictionary's insertion order. -/
structure PatentInfo where
  patent_title : String
  abstract : String
  inventor_name : String
  assignee_name : String
  filing_date : String
  patent_text : String
  patent_url : String
  publication_number : String
  inventions : List String
  deriving DecidableEq, Repr

/-- `extract_patent_info_with_llm(url)` (`working.py` lines 171-192):
`none` iff `clean_html_content` failed; otherwise copies the raw fields, adds
the URL, the publication number from the URL regex
(`r"/patent/([^/]+)/"`, modelled by the `urlMatch` argument, `'N/A'` on a
miss), and `inventions = [claims_text] if claims_text else []` — an absent
*or empty* claims text yields `[]`. -/
def extract_patent_info_with_llm (url : String) (urlMatch : Option String)
    (fetched : Option Page) : Option PatentInfo :=
  match clean_html_content fetched with
  | none => none
  | some pd =>
    some
      { patent_title := pd.patent_title
        abstract := pd.abstract
        inventor_name := pd.inventor_name
        assignee_name := pd.assignee_name
        filing_date := pd.filing_date
        patent_text := pd.patent_text
        patent_url := url
        publication_number := match urlMatch with | some m => m | none => "N/A"
        inventions :=
          match pd.claims_text with
          | some c => if c = "" then [] else [c]
          | none => [] }

/-! ## Content store (`ipfs_handler.py` `IPFSHandler`)

The record serialized by `save_and_upload` (its `formatted_data` dictionary,
keys in insertion order, with `ipfs_hash` appended after the first upload). An
IPFS address is a deterministic function of the uploaded bytes; the model uses
the serialization itself as the address, which preserves exactly the
properties the code relies on: determinism (identical bytes → identical
address) and freedom from collisions. -/

structure FormattedData where
  patent_title : String
  abstract : String
  inventions : List String
  publication_number : String
  filing_date : String
  assignee_name : String
  inventor_name : String
  patent_url : String
  patent_text : String
  ipfs_hash : Option String
  deriving DecidableEq, Repr

/-- Rendering of the `inventions` list inside the serialization. -/
def serializeListStr (l : List String) : String :=
  String.intercalate "\n" l

/-- Serialization of the nine always-present fields, in the insertion order of
`formatted_data` (`ipfs_handler.py` lines 105-115). -/
def serializeCore (r : FormattedData) : String :=
  "patent_title:" ++ r.patent_title ++
    ";abstract:" ++ r.abstract ++
    ";inventions:" ++ serializeListStr r.inventions ++
    ";publication_number:" ++ r.publication_number ++
    ";filing_date:" ++ r.filing_date ++
    ";assignee_name:" ++ r.assignee_name ++
    ";inventor_name:" ++ r.inventor_name ++
    ";patent_url:" ++ r.patent_url ++
    ";patent_text:" ++ r.patent_text

/-- `json.dumps(formatted_data, indent=2)`: the `ipfs_hash` key is present
only after it has been assigned (`ipfs_handler.py` line 132). -/
def serializeFormatted (r : FormattedData) : String :=
  serializeCore r ++
    (match r.ipfs_hash with
     | none => ""
     | some h => ";ipfs_hash:" ++ h)

/-- The content-store service state: retrievable objects keyed by address,
plus the pin set. -/
structure IpfsStore where
  objects : List (String × FormattedData)
  pins : List String
  deriving DecidableEq, Repr

/-- `POST /api/v0/add`: content-addressed put; returns the address of the
uploaded serialization and records the object under it. -/
def ipfsAdd (s : IpfsStore) (r : FormattedData) : String × IpfsStore :=
  let h := serializeFormatted r
  (h, { s with objects := (h, r) :: s.objects })

/-- `POST /api/v0/cat`: retrieval by address
(`ipfs_handler.py` `get_from_ipfs`, lines 79-97). -/
def ipfsCat (s : IpfsStore) (h : String) : Option FormattedData :=
  (s.objects.find? (fun e => e.1 == h)).map (fun e => e.2)

/-- `POST /api/v0/pin/add` (`ipfs_handler.py` lines 153-156). -/
def ipfsPin (s : IpfsStore) (h : String) : IpfsStore :=
  { s with pins := h :: s.pins }

/-- The `formatted_data` dictionary built at the top of `save_and_upload`
(`ipfs_handler.py` lines 105-115): every field read from the input record
with `''`/`[]` defaults (all present here), except `publication_number`,
which is taken from the `patent_number` *argument*; no `ipfs_hash` yet. -/
def toFormatted (patent_data : PatentInfo) (patent_number : String) :
    FormattedData :=
  { patent_title := patent_data.patent_title
    abstract := patent_data.abstract
    inventions := patent_data.inventions
    publication_number := patent_number
    filing_date := patent_data.filing_date
    assignee_name := patent_data.assignee_name
    inventor_name := patent_data.inventor_name
    patent_url := patent_data.patent_url
    patent_text := patent_data.patent_text
    ipfs_hash := none }

/-- `patent_json/{patent_number}.json` — the same path is used by `main`
(`working.py` line 277) and by `save_and_upload`
(`ipfs_handler.py` line 148). -/
def jsonPath (patent_number : String) : String :=
  "patent_json/" ++ patent_number ++ ".json"

/-- `IPFSHandler.save_and_upload(patent_data, patent_number)`
(`ipfs_handler.py` lines 99-214). `ok1`/`ok2` are the HTTP outcomes of the
two `add` calls. On the success path: upload the hash-free serialization to
obtain `addr1`; embed `addr1` into the record as `ipfs_hash`; upload the
enlarged serialization to obtain `addr2`; write the enriched record to the
local JSON file; pin `addr2`; return `addr2`. Any failure returns `""` with
no local write and no pin. (The best-effort MFS mirror calls are not
modelled; their failures never affect the result.) The third component lists
the local file writes `(path, content)` performed. -/
def save_and_upload (ok1 ok2 : Bool) (store : IpfsStore)
    (patent_data : PatentInfo) (patent_number : String) :
    String × IpfsStore × List (String × String) :=
  let formatted := toFormatted patent_data patent_number
  if ok1 then
    let r1 := ipfsAdd store formatted
    let formatted2 := { formatted with ipfs_hash := some r1.1 }
    if ok2 then
      let r2 := ipfsAdd r1.2 formatted2
      let s3 := ipfsPin r2.2 r2.1
      (r2.1, s3, [(jsonPath patent_number, serializeFormatted formatted2)])
    else ("", r1.2, [])
  else ("", store, [])

/-! ## Ingestion orchestrator (`working.py` `main`, lines 236-341) -/

/-- `json.dump(patent_data, f, indent=4)` (`working.py` line 295): the
per-identifier dictionary in its insertion order (which differs from the
`formatted_data` order, and has no `ipfs_hash` key). -/
def serializePatentInfo (p : PatentInfo) : String :=
  "patent_title:" ++ p.patent_title ++
    ";abstract:" ++ p.abstract ++
    ";inventor_name:" ++ p.inventor_name ++
    ";assignee_name:" ++ p.assignee_name ++
    ";filing_date:" ++ p.filing_date ++
    ";patent_text:" ++ p.patent_text ++
    ";patent_url:" ++ p.patent_url ++
    ";publication_number:" ++ p.publication_number ++
    ";inventions:" ++ serializeListStr p.inventions

/-- Observable events of processing one identifier in `main`. -/
inductive WEv where
  | skipExisting (patent_number : String)
  | extractCall (url : String)
  | localWrite (path : String) (content : String)
  | embedCall
  | chromaAdd
  | ipfsUploadCall (patent_number : String)
  deriving DecidableEq, Repr

/-- One iteration of the URL loop in `main` (`working.py` lines 256-327),
for a URL whose identifier regex matched `patent_number`. `localFiles` is the
set of files existing under `patent_json/`. If the identifier's JSON already
exists, the iteration only logs and skips. Otherwise it extracts
(`pageFetch`/`urlMatch` are the extraction oracle), writes the local JSON,
embeds and stores in ChromaDB (`chromaOk = false` models an exception in that
inner `try`, after which the iteration `continue`s — the local file stays),
then runs `save_and_upload`. -/
def processUrl (localFiles : List String) (store : IpfsStore)
    (patent_number url : String) (urlMatch : Option String)
    (pageFetch : Option Page) (chromaOk ok1 ok2 : Bool) :
    List String × IpfsStore × List WEv :=
  let json_path := jsonPath patent_number
  if json_path ∈ localFiles then
    (localFiles, store, [WEv.skipExisting patent_number])
  else
    match extract_patent_info_with_llm url urlMatch pageFetch with
    | none => (localFiles, store, [WEv.extractCall url])
    | some pd0 =>
      let pd := { pd0 with publication_number := patent_number }
      let localFiles' := localFiles ++ [json_path]
      if chromaOk then
        let r := save_and_upload ok1 ok2 store pd patent_number
        (localFiles', r.2.1,
          WEv.extractCall url ::
            WEv.localWrite json_path (serializePatentInfo pd) ::
            WEv.embedCall :: WEv.chromaAdd ::
            WEv.ipfsUploadCall patent_number ::
            r.2.2.map (fun w => WEv.localWrite w.1 w.2))
      else
        (localFiles', store,
          [WEv.extractCall url,
            WEv.localWrite json_path (serializePatentInfo pd),
            WEv.embedCall])

/-- The local file writes `(path, content)` in an orchestrator trace. -/
def localWritesOf (evs : List WEv) : List (String × String) :=
  evs.filterMap fun e =>
    match e with
    | WEv.localWrite p c => some (p, c)
    | _ => none

/-! ## Derived abbreviations for the two-phase store and concrete fixtures -/

/-- `addr1`: the address returned by the first (hash-free) upload in
`save_and_upload`. -/
def twoPhaseFirst (patent_data : PatentInfo) (patent_number : String) : String :=
  serializeFormatted (toFormatted patent_data patent_number)

/-- The record stored by the second upload: the formatted record with
`ipfs_hash = addr1` embedded. -/
def twoPhaseRecord (patent_data : PatentInfo) (patent_number : String) :
    FormattedData :=
  { toFormatted patent_data patent_number with
      ipfs_hash := some (twoPhaseFirst patent_data patent_number) }

/-- `addr2`: the address of the second upload — the address that is pinned
and returned. -/
def twoPhaseFinal (patent_data : PatentInfo) (patent_number : String) : String :=
  serializeFormatted (twoPhaseRecord patent_data patent_number)

deriving instance DecidableEq for Except

/-- Fixture: a window whose pages 0 and 1 are non-empty (with an in-page
duplicate) and whose page 2 is empty. -/
def exFetchPages2 : Nat → Nat → Option (List String) :=
  fun p _ => if p < 2 then some ["US1234567", "US1234567", "US7654321"] else some []

/-- Fixture: pages 0-3 non-empty, page 4 empty. -/
def exFetchPages4 : Nat → Nat → Option (List String) :=
  fun p _ => if p < 4 then some ["US1"] else some []

/-- Fixture: every fetch attempt throws. -/
def exFetchFail : Nat → Nat → Option (List String) :=
  fun _ _ => none

/-- Fixture: page 1 is empty although page 2 would be non-empty. -/
def exFetchEmptyAt1 : Nat → Nat → Option (List String) :=
  fun p _ => if p = 1 then some [] else some ["US1"]

/-- Fixture: a rendered page with no current assignee and no title. -/
def exPage : Page :=
  { title := none
    abstract := some " An abstract "
    inventor := some "Ada"
    assigneeCurrent := none
    assigneeOriginal := some "Acme Corp"
    filingDate := some "2020-01-01"
    claims := some "1. A widget."
    fullText := "Body text" }

/-- Fixture: midnight, 2024-01-01. -/
def exDate : DateTime := ⟨2024, 1, 1, 0⟩

/-- Fixture: a fully populated extracted record. -/
def exPatentInfo : PatentInfo :=
  { patent_title := "T"
    abstract := "A"
    inventor_name := "I"
    assignee_name := "AS"
    filing_date := "FD"
    patent_text := "TXT"
    patent_url := "u"
    publication_number := "US1"
    inventions := ["c"] }

/-- Fixture: the record extracted from `exPage` at URL `"u"` with URL-regex
match `"US1"`. -/
def extractedExPage : PatentInfo :=
  { patent_title := "N/A"
    abstract := "An abstract"
    inventor_name := "Ada"
    assignee_name := "Acme Corp"
    filing_date := "2020-01-01"
    patent_text := "Body text"
    patent_url := "u"
    publication_number := "US1"
    inventions := ["1. A widget."] }

/-! # Theorems -/

/-! ## Properties of `dedupKeepFirst` -/

theorem mem_dedupKeepFirst {α : Type} [DecidableEq α] (a : α) :
    ∀ l : List α, a ∈ dedupKeepFirst l ↔ a ∈ l := by
  intro l
  induction l with
  | nil => simp [dedupKeepFirst]
  | cons b l ih =>
    by_cases hab : a = b
    · subst hab; simp [dedupKeepFirst]
    · simp [dedupKeepFirst, List.mem_filter, hab, ih]

theorem nodup_dedupKeepFirst {α : Type} [DecidableEq α] :
    ∀ l : List α, (dedupKeepFirst l).Nodup := by
  intro l
  induction l with
  | nil => simp [dedupKeepFirst]
  | cons b l ih =>
    simp only [dedupKeepFirst, List.nodup_cons]
    constructor
    · intro hmem
      have := (List.mem_filter.mp hmem).2
      simp at this
    · exact ih.filter _

theorem dedupKeepFirst_append {α : Type} [DecidableEq α] :
    ∀ l₁ l₂ : List α,
      dedupKeepFirst (l₁ ++ l₂) =
        dedupKeepFirst l₁ ++ (dedupKeepFirst l₂).filter (fun x => decide (x ∉ l₁)) := by
  intro l₁
  induction l₁ with
  | nil =>
    intro l₂
    simp [dedupKeepFirst, List.filter_true]
  | cons a l₁ ih =>
    intro l₂
    show a :: (dedupKeepFirst (l₁ ++ l₂)).filter (fun x => decide (x ≠ a)) =
      (a :: (dedupKeepFirst l₁).filter (fun x => decide (x ≠ a))) ++
        (dedupKeepFirst l₂).filter (fun x => decide (x ∉ a :: l₁))
    rw [ih, List.filter_append, List.cons_append]
    congr 2
    rw [List.filter_filter]
    apply List.filter_congr
    intro x _
    by_cases hxa : x = a <;> by_cases hxl : x ∈ l₁ <;>
      simp [hxa, hxl, List.mem_cons]

theorem dedupKeepFirst_map {α β : Type} [DecidableEq α] [DecidableEq β]
    (f : α → β) (hf : Function.Injective f) :
    ∀ l : List α, dedupKeepFirst (l.map f) = (dedupKeepFirst l).map f := by
  intro l
  induction l with
  | nil => simp [dedupKeepFirst]
  | cons a l ih =>
    show f a :: (dedupKeepFirst (l.map f)).filter (fun x => decide (x ≠ f a)) =
      f a :: ((dedupKeepFirst l).filter (fun x => decide (x ≠ a))).map f
    rw [ih, List.filter_map]
    congr 2
    apply List.filter_congr
    intro x _
    simp [Function.comp, hf.ne_iff]

/-! ## Basic link-store lemmas -/

theorem toLink_injective : Function.Injective toLink := by
  intro a b h
  simp only [toLink] at h
  have hd : ("https://patents.google.com/patent/" ++ a).data =
      ("https://patents.google.com/patent/" ++ b).data := by rw [h]
  rw [String.data_append, String.data_append] at hd
  exact String.ext (List.append_cancel_left hd)

theorem filter_idem {α : Type} (p : α → Bool) (l : List α) :
    (l.filter p).filter p = l.filter p := by
  rw [List.filter_filter]
  apply List.filter_congr
  intro x _
  cases p x <;> simp

/-- When the in-memory set equals the log (as it does at startup, after
`load_existing_patents`), one page keeps them equal: the log and the set both
grow by exactly the page's new links. -/
theorem linkStep_synced (f t : List String) :
    linkStep ⟨f, f⟩ t = ⟨f ++ newPatentsOf f t, f ++ newPatentsOf f t⟩ := by
  simp only [linkStep, save_new_patents, newPatentsOf, filter_idem]

/-- Closed form of a whole run of non-empty pages over the link store:
starting from log `f₀` (with the in-memory set loaded from it), the final log
is `f₀` extended by the first occurrence of every newly discovered link, in
first-discovery order. -/
theorem foldl_linkStep_eq (pages : List (List String)) :
    ∀ f₀ : List String,
      pages.foldl linkStep ⟨f₀, f₀⟩ =
        ⟨f₀ ++ (dedupKeepFirst ((pages.join).map toLink)).filter
            (fun x => decide (x ∉ f₀)),
          f₀ ++ (dedupKeepFirst ((pages.join).map toLink)).filter
            (fun x => decide (x ∉ f₀))⟩ := by
  induction pages with
  | nil =>
    intro f₀
    simp [dedupKeepFirst]
  | cons t ps ih =>
    intro f₀
    rw [List.foldl_cons, linkStep_synced, ih]
    have hN : newPatentsOf f₀ t =
        (dedupKeepFirst (t.map toLink)).filter (fun x => decide (x ∉ f₀)) := by
      rw [newPatentsOf, pageLinks, dedupKeepFirst_map toLink toLink_injective]
    have hjoin : ((t :: ps).join).map toLink =
        t.map toLink ++ (ps.join).map toLink := by
      simp
    rw [hjoin, dedupKeepFirst_append, List.filter_append, hN]
    have hfilters :
        (dedupKeepFirst ((ps.join).map toLink)).filter
            (fun x => decide (x ∉ f₀ ++ (dedupKeepFirst (t.map toLink)).filter
              (fun x => decide (x ∉ f₀)))) =
          ((dedupKeepFirst ((ps.join).map toLink)).filter
            (fun x => decide (x ∉ t.map toLink))).filter
              (fun x => decide (x ∉ f₀)) := by
      rw [List.filter_filter]
      apply List.filter_congr
      intro x _
      by_cases hf : x ∈ f₀ <;> by_cases hl : x ∈ t.map toLink <;>
        simp [hf, hl, List.mem_append, List.mem_filter, mem_dedupKeepFirst]
    rw [hfilters]
    simp [List.append_assoc]

/-- Claim C3: for every sequence of discovered identifiers — across pages and
across process restarts — the persisted LinkStore log contains each unique
identifier exactly once, in first-discovery order, and an append writes only
identifiers not already present. Formally: starting from any duplicate-free
log `f₀` (with the in-memory set loaded from it), after any sequence of pages
the log equals `f₀` followed by the not-yet-known discovered links deduplicated
in first-occurrence order; the log stays duplicate-free; the in-memory set
stays equal to the log; and a process restart (reloading the set from the log
before processing `qs`) yields the same result as one uninterrupted run. -/
theorem claim_C3_linkstore_dedup (pages qs : List (List String))
    (f₀ : List String) (h : f₀.Nodup) :
    (pages.foldl linkStep ⟨f₀, f₀⟩).file =
        f₀ ++ (dedupKeepFirst ((pages.join).map toLink)).filter
          (fun x => decide (x ∉ f₀)) ∧
    (pages.foldl linkStep ⟨f₀, f₀⟩).file.Nodup ∧
    (pages.foldl linkStep ⟨f₀, f₀⟩).existing = (pages.foldl linkStep ⟨f₀, f₀⟩).file ∧
    qs.foldl linkStep
        ⟨(pages.foldl linkStep ⟨f₀, f₀⟩).file, (pages.foldl linkStep ⟨f₀, f₀⟩).file⟩ =
      (pages ++ qs).foldl linkStep ⟨f₀, f₀⟩ := by
  have hmain := foldl_linkStep_eq pages f₀
  refine ⟨by rw [hmain], ?_, by rw [hmain], ?_⟩
  · rw [hmain]
    apply List.Nodup.append h ((nodup_dedupKeepFirst _).filter _)
    intro x hx hx'
    have := (List.mem_filter.mp hx').2
    simp at this
    exact this hx
  · rw [List.foldl_append, hmain]

/-- Witness for claim C3, on the spec's own example: a page body containing
tokens `US1234567, US1234567, US7654321` yields a log with each link exactly
once. -/
theorem claim_C3_witness :
    ([["US1234567", "US1234567", "US7654321"]].foldl linkStep ⟨[], []⟩).file =
      ["https://patents.google.com/patent/US1234567",
        "https://patents.google.com/patent/US7654321"] ∧
    ([["US1234567", "US1234567", "US7654321"]].foldl linkStep ⟨[], []⟩).file.Nodup := by
  have h := claim_C3_linkstore_dedup [["US1234567", "US1234567", "US7654321"]] []
    [] (by decide)
  exact ⟨by decide, h.2.1⟩

/-! ## Crawl-loop trace lemmas -/

theorem ckptCovered_fetchAttempt (p : Nat) (rest : List Ev) (seen : List Nat) :
    ckptCovered (Ev.fetchAttempt p :: rest) seen = ckptCovered rest seen := rfl

theorem ckptCovered_sleepSec (n : Nat) (rest : List Ev) (seen : List Nat) :
    ckptCovered (Ev.sleepSec n :: rest) seen = ckptCovered rest seen := rfl

theorem ckptCovered_appendIds (p : Nat) (ids : List String) (rest : List Ev)
    (seen : List Nat) :
    ckptCovered (Ev.appendIds p ids :: rest) seen =
      ckptCovered rest (seen ++ [p]) := rfl

theorem ckptCovered_checkpointWrite (p : Nat) (rest : List Ev) (seen : List Nat) :
    ckptCovered (Ev.checkpointWrite p :: rest) seen =
      (seen.contains p && ckptCovered rest seen) := rfl

theorem ckptCovered_abandoned (rest : List Ev) (seen : List Nat) :
    ckptCovered (Ev.abandoned :: rest) seen = ckptCovered rest seen := rfl

theorem ckptCovered_windowDone (rest : List Ev) (seen : List Nat) :
    ckptCovered (Ev.windowDone :: rest) seen = ckptCovered rest seen := rfl

/-- The retry loop emits only fetch attempts and sleeps, so it is transparent
to the checkpoint-coverage check. -/
theorem ckptCovered_attempt (fetch : Nat → Nat → Option (List String)) (page : Nat) :
    ∀ budget attempt rest seen,
      ckptCovered ((attemptPage fetch page attempt budget).2 ++ rest) seen =
        ckptCovered rest seen := by
  intro budget
  induction budget with
  | zero =>
    intro attempt rest seen
    simp [attemptPage]
  | succ b ih =>
    intro attempt rest seen
    cases hf : fetch page attempt with
    | some t =>
      simp [attemptPage, hf, ckptCovered_fetchAttempt]
    | none =>
      by_cases hb : b = 0
      · subst hb
        simp [attemptPage, hf, ckptCovered_fetchAttempt]
      · simp only [attemptPage, hf, hb, if_false, List.cons_append,
          ckptCovered_fetchAttempt, ckptCovered_sleepSec]
        exact ih (attempt + 1) rest seen

/-- In every crawl-controller trace, a checkpoint write for page `p` happens
only after that page's identifiers were appended to the log. -/
theorem crawl_ckptCovered (fetch : Nat → Nat → Option (List String))
    (d : DateTime) :
    ∀ fuel s page seen,
      ckptCovered ((crawlLoop fetch d s page fuel).2) seen = true := by
  intro fuel
  induction fuel with
  | zero =>
    intro s page seen
    simp [crawlLoop, ckptCovered]
  | succ n ih =>
    intro s page seen
    cases hr : retryPage fetch page with
    | mk ro evs =>
      have hsnd : (attemptPage fetch page 0 MAX_RETRIES).2 = evs := by
        rw [show attemptPage fetch page 0 MAX_RETRIES = retryPage fetch page
          from rfl, hr]
      cases ro with
      | none =>
        simp only [crawlLoop, hr]
        rw [← hsnd, ckptCovered_attempt, ckptCovered_abandoned]
        rfl
      | some toks =>
        by_cases ht : toks = []
        · simp only [crawlLoop, hr, ht, if_true]
          rw [← hsnd, ckptCovered_attempt, ckptCovered_windowDone]
          rfl
        · simp only [crawlLoop, hr, ht, if_false]
          rw [← hsnd, ckptCovered_attempt, ckptCovered_appendIds,
            ckptCovered_checkpointWrite, ckptCovered_sleepSec]
          have hc : (seen ++ [page]).contains page = true := by
            simp
          rw [hc]
          simp only [Bool.true_and]
          exact ih _ _ _

/-- Claim C5: `last_completed_page` is updated only after the page's new
identifiers were durably appended to the log — in every trace of the crawl
controller, each `checkpointWrite p` is preceded by the `appendIds p` for the
same page — and on the spec's example window (pages 0 and 1 non-empty, page 2
empty) the final checkpoint records last completed page 1, no checkpoint
write occurs for page 2, and the controller reaches `windowDone`. -/
theorem claim_C5_checkpoint_after_append :
    (∀ (fetch : Nat → Nat → Option (List String)) (d : DateTime)
        (s : CrawlState) (page fuel : Nat) (seen : List Nat),
      ckptCovered ((crawlLoop fetch d s page fuel).2) seen = true) ∧
    finalCheckpoint (getLinks exFetchPages2 [] none exDate 9) =
      some "2024-01-01,1" ∧
    Ev.checkpointWrite 2 ∉ crawlEvsOf (getLinks exFetchPages2 [] none exDate 9) ∧
    Ev.checkpointWrite 1 ∈ crawlEvsOf (getLinks exFetchPages2 [] none exDate 9) ∧
    Ev.checkpointWrite 0 ∈ crawlEvsOf (getLinks exFetchPages2 [] none exDate 9) ∧
    Ev.windowDone ∈ crawlEvsOf (getLinks exFetchPages2 [] none exDate 9) := by
  refine ⟨fun fetch d s page fuel seen => crawl_ckptCovered fetch d fuel s page seen,
    by decide, by decide, by decide, by decide, by decide⟩

theorem pagesFetched_nil : pagesFetched [] = [] := rfl

theorem pagesFetched_cons_fetch (p : Nat) (rest : List Ev) :
    pagesFetched (Ev.fetchAttempt p :: rest) = p :: pagesFetched rest := rfl

theorem pagesFetched_cons_sleep (n : Nat) (rest : List Ev) :
    pagesFetched (Ev.sleepSec n :: rest) = pagesFetched rest := rfl

theorem pagesFetched_cons_appendIds (p : Nat) (ids : List String) (rest : List Ev) :
    pagesFetched (Ev.appendIds p ids :: rest) = pagesFetched rest := rfl

theorem pagesFetched_cons_ckpt (p : Nat) (rest : List Ev) :
    pagesFetched (Ev.checkpointWrite p :: rest) = pagesFetched rest := rfl

theorem pagesFetched_cons_recreate (rest : List Ev) :
    pagesFetched (Ev.recreateSession :: rest) = pagesFetched rest := rfl

theorem pagesFetched_cons_abandoned (rest : List Ev) :
    pagesFetched (Ev.abandoned :: rest) = pagesFetched rest := rfl

theorem pagesFetched_cons_windowDone (rest : List Ev) :
    pagesFetched (Ev.windowDone :: rest) = pagesFetched rest := rfl

theorem pagesFetched_append (a b : List Ev) :
    pagesFetched (a ++ b) = pagesFetched a ++ pagesFetched b := by
  simp [pagesFetched]

/-- Every fetch attempt recorded by the retry loop is for its own page. -/
theorem pagesFetched_attempt (fetch : Nat → Nat → Option (List String))
    (page : Nat) :
    ∀ budget attempt q, q ∈ pagesFetched (attemptPage fetch page attempt budget).2 →
      q = page := by
  intro budget
  induction budget with
  | zero =>
    intro attempt q hq
    simp [attemptPage, pagesFetched] at hq
  | succ b ih =>
    intro attempt q hq
    cases hf : fetch page attempt with
    | some t =>
      simp only [attemptPage, hf] at hq
      rw [pagesFetched_cons_fetch, pagesFetched_nil] at hq
      simpa using hq
    | none =>
      by_cases hb : b = 0
      · subst hb
        simp only [attemptPage, hf, eq_self_iff_true, if_true] at hq
        rw [pagesFetched_cons_fetch, pagesFetched_nil] at hq
        simpa using hq
      · simp only [attemptPage, hf, if_neg hb] at hq
        rw [pagesFetched_cons_fetch, pagesFetched_cons_sleep] at hq
        rcases List.mem_cons.mp hq with hq | hq
        · exact hq
        · exact ih (attempt + 1) q hq

/-- The crawl loop started at `page` never fetches a page below `page`. -/
theorem crawl_pages_ge (fetch : Nat → Nat → Option (List String)) (d : DateTime) :
    ∀ fuel s page q, q ∈ pagesFetched (crawlLoop fetch d s page fuel).2 →
      page ≤ q := by
  intro fuel
  induction fuel with
  | zero =>
    intro s page q hq
    simp [crawlLoop, pagesFetched] at hq
  | succ n ih =>
    intro s page q hq
    cases hr : retryPage fetch page with
    | mk ro evs =>
      have hsnd : (attemptPage fetch page 0 MAX_RETRIES).2 = evs := by
        rw [show attemptPage fetch page 0 MAX_RETRIES = retryPage fetch page
          from rfl, hr]
      cases ro with
      | none =>
        simp only [crawlLoop, hr] at hq
        rw [pagesFetched_append] at hq
        rcases List.mem_append.mp hq with hq | hq
        · rw [pagesFetched_attempt fetch page MAX_RETRIES 0 q (by rw [hsnd]; exact hq)]
        · rw [pagesFetched_cons_abandoned, pagesFetched_nil] at hq
          simp at hq
      | some toks =>
        by_cases ht : toks = []
        · simp only [crawlLoop, hr, ht, eq_self_iff_true, if_true] at hq
          rw [pagesFetched_append] at hq
          rcases List.mem_append.mp hq with hq | hq
          · rw [pagesFetched_attempt fetch page MAX_RETRIES 0 q (by rw [hsnd]; exact hq)]
          · rw [pagesFetched_cons_windowDone, pagesFetched_nil] at hq
            simp at hq
        · simp only [crawlLoop, hr, if_neg ht] at hq
          rw [pagesFetched_append] at hq
          rcases List.mem_append.mp hq with hq | hq
          · rw [pagesFetched_attempt fetch page MAX_RETRIES 0 q (by rw [hsnd]; exact hq)]
          · rw [pagesFetched_cons_appendIds, pagesFetched_cons_ckpt,
              pagesFetched_cons_sleep] at hq
            have := ih _ (page + 1) q hq
            omega

/-- Claim C6: the first page whose rendered body yields zero identifier tokens
terminates the window's pagination unconditionally. If every page before `k`
fetches successfully with a non-empty token list and page `k` fetches an empty
one, then — no matter what any later page would return — every page index
fetched by the controller is at most `k`, and the run ends in `windowDone`. -/
theorem claim_C6_empty_page_terminates
    (fetch : Nat → Nat → Option (List String)) (d : DateTime) (s : CrawlState)
    (k page fuel : Nat)
    (h1 : ∀ j, j < k → (retryPage fetch j).1 ≠ none ∧ (retryPage fetch j).1 ≠ some [])
    (h2 : (retryPage fetch k).1 = some [])
    (hp : page ≤ k) (hfuel : k - page < fuel) :
    ((pagesFetched (crawlLoop fetch d s page fuel).2).all
        (fun q => decide (q ≤ k))) = true ∧
    Ev.windowDone ∈ (crawlLoop fetch d s page fuel).2 := by
  induction fuel generalizing s page with
  | zero => omega
  | succ n ih =>
    cases hr : retryPage fetch page with
    | mk ro evs =>
      have hsnd : (attemptPage fetch page 0 MAX_RETRIES).2 = evs := by
        rw [show attemptPage fetch page 0 MAX_RETRIES = retryPage fetch page
          from rfl, hr]
      have hmemattempt : ∀ q, q ∈ pagesFetched evs → q = page := fun q hq =>
        pagesFetched_attempt fetch page MAX_RETRIES 0 q (by rw [hsnd]; exact hq)
      by_cases hpk : page = k
      · subst hpk
        have hro : ro = some [] := by
          have := h2
          rw [hr] at this
          exact this
        subst hro
        simp only [crawlLoop, hr, eq_self_iff_true, if_true]
        constructor
        · rw [List.all_eq_true]
          intro q hq
          rw [pagesFetched_append] at hq
          rcases List.mem_append.mp hq with hq | hq
          · simp [hmemattempt q hq]
          · rw [pagesFetched_cons_windowDone, pagesFetched_nil] at hq
            simp at hq
        · simp
      · have hlt : page < k := lt_of_le_of_ne hp hpk
        have hne := h1 page hlt
        rw [hr] at hne
        cases ro with
        | none => exact absurd rfl hne.1
        | some toks =>
          have ht : ¬(toks = []) := by
            intro h
            exact hne.2 (by rw [h])
          simp only [crawlLoop, hr, if_neg ht]
          have hrec := ih ⟨linkStep s.links toks,
              some (save_scraping_state d page)⟩ (page + 1) (by omega) (by omega)
          constructor
          · rw [List.all_eq_true]
            intro q hq
            rw [pagesFetched_append] at hq
            rcases List.mem_append.mp hq with hq | hq
            · have := hmemattempt q hq
              simp [this]
              omega
            · rw [pagesFetched_cons_appendIds, pagesFetched_cons_ckpt,
                pagesFetched_cons_sleep] at hq
              have := List.all_eq_true.mp hrec.1 q hq
              simpa using this
          · simp only [List.mem_append, List.mem_cons]
            right; right; right; right
            exact hrec.2

/-- Witness for claim C6: page 0 non-empty, page 1 empty, page 2 would be
non-empty again; only pages up to 1 are fetched and the window completes. -/
theorem claim_C6_witness :
    ((pagesFetched (crawlLoop exFetchEmptyAt1 exDate (initCrawlState [] none) 0 9).2).all
        (fun q => decide (q ≤ 1))) = true ∧
    Ev.windowDone ∈ (crawlLoop exFetchEmptyAt1 exDate (initCrawlState [] none) 0 9).2 :=
  claim_C6_empty_page_terminates exFetchEmptyAt1 exDate (initCrawlState [] none)
    1 0 9 (by decide) (by decide) (by decide) (by decide)

/-- The retry loop's trace always begins with a fetch attempt for its page. -/
theorem attemptPage_head (fetch : Nat → Nat → Option (List String))
    (page attempt budget : Nat) :
    ∃ t, (attemptPage fetch page attempt (budget + 1)).2 =
      Ev.fetchAttempt page :: t := by
  cases hf : fetch page attempt with
  | some tk => exact ⟨[], by simp [attemptPage, hf]⟩
  | none =>
    by_cases hb : budget = 0
    · subst hb
      exact ⟨[], by simp [attemptPage, hf]⟩
    · exact ⟨Ev.sleepSec PAGE_LOAD_DELAY ::
        (attemptPage fetch page (attempt + 1) budget).2, by
          simp [attemptPage, hf, hb]⟩

/-- With fuel available, the crawl loop's first event is a fetch attempt for
its starting page: that page is fetched. -/
theorem crawlLoop_head (fetch : Nat → Nat → Option (List String)) (d : DateTime)
    (s : CrawlState) (page n : Nat) :
    ((crawlLoop fetch d s page (n + 1)).2).head? = some (Ev.fetchAttempt page) := by
  obtain ⟨t, ht⟩ := attemptPage_head fetch page 0 2
  have ht' : (attemptPage fetch page 0 MAX_RETRIES).2 = Ev.fetchAttempt page :: t := ht
  cases hr : retryPage fetch page with
  | mk ro evs =>
    have hevs : evs = Ev.fetchAttempt page :: t := by
      rw [← ht']
      rw [show attemptPage fetch page 0 MAX_RETRIES = retryPage fetch page from rfl,
        hr]
    cases ro with
    | none => simp [crawlLoop, hr, hevs]
    | some toks =>
      by_cases htk : toks = []
      · simp [crawlLoop, hr, htk, hevs]
      · simp [crawlLoop, hr, htk, hevs]

theorem parseStateLine_tod (c : String) (dt : DateTime) (p : Nat)
    (h : parseStateLine c = some (dt, p)) : dt.tod = 0 := by
  unfold parseStateLine at h
  split at h
  · split at h
    · injection h with h'
      have := congrArg Prod.fst h'
      simp at this
      rw [← this]
    · exact absurd h (by simp)
  · exact absurd h (by simp)

/-- Claim C2, corrected. The claim as stated is false: on a matching window
the controller resumes *at* the saved page index `p` — the last completed
page — so page `p` is re-fetched (see `claim_C2_counterexample`). What holds:
if the checkpoint file parses to `(d, p)` and the planned window start equals
`d` exactly (which requires the planned start to sit at midnight, since the
parsed date always does), pagination starts at page `p`: page `p`'s fetch is
the first event, and no page with index below `p` — in particular none in
`0..p-1` — is ever fetched. If the planned start differs from `d` in any
component, pagination restarts at page 0. -/
theorem claim_C2_resume_at_last_completed
    (fetch : Nat → Nat → Option (List String)) (f₀ : List String) (c : String)
    (d d' : DateTime) (p fuel : Nat)
    (hload : load_scraping_state (some c) = Except.ok (some d, p)) :
    getLinks fetch f₀ (some c) d (fuel + 1) =
      Except.ok (crawlLoop fetch d (initCrawlState f₀ (some c)) p (fuel + 1)) ∧
    d.tod = 0 ∧
    ((pagesFetched (crawlLoop fetch d (initCrawlState f₀ (some c)) p (fuel + 1)).2).all
        (fun q => decide (p ≤ q))) = true ∧
    ((crawlLoop fetch d (initCrawlState f₀ (some c)) p (fuel + 1)).2).head? =
      some (Ev.fetchAttempt p) ∧
    (d' ≠ d → getLinks fetch f₀ (some c) d' (fuel + 1) =
      Except.ok (crawlLoop fetch d' (initCrawlState f₀ (some c)) 0 (fuel + 1))) := by
  have hparse : parseStateLine c = some (d, p) := by
    cases hp : parseStateLine c with
    | none =>
      rw [show load_scraping_state (some c) = Except.error () by
        simp [load_scraping_state, hp]] at hload
      exact absurd hload (by simp)
    | some dp =>
      cases dp with
      | mk d0 p0 =>
        rw [show load_scraping_state (some c) = Except.ok (some d0, p0) by
          simp [load_scraping_state, hp]] at hload
        injection hload with h'
        simp only [Prod.mk.injEq, Option.some_inj] at h'
        rw [h'.1, h'.2]
  refine ⟨?_, parseStateLine_tod c d p hparse, ?_, crawlLoop_head fetch d _ p fuel, ?_⟩
  · simp [getLinks, load_scraping_state, hparse]
  · rw [List.all_eq_true]
    intro q hq
    have := crawl_pages_ge fetch d (fuel + 1) (initCrawlState f₀ (some c)) p q hq
    simpa using this
  · intro hne
    have : ¬(some d = some d') := by
      intro h
      exact hne (Option.some_inj.mp h).symm
    simp [getLinks, load_scraping_state, hparse, this]

/-- Counterexample to claim C2 as stated: with checkpoint
`{window start 2024-01-01, last_completed_page = 2}` and the planned window
starting exactly at 2024-01-01 (midnight), the next run *does* fetch page 2 —
the claim asserts no page with index in `0..2` is fetched. -/
theorem claim_C2_counterexample :
    (2 : Nat) ∈ pagesFetched
      (crawlEvsOf (getLinks exFetchPages4 [] (some "2024-01-01,2") exDate 5)) := by
  decide

/-- Witness for the corrected claim C2: the checkpoint written by
`save_scraping_state` for window start 2024-01-01 and last completed page 2
parses back, resumption starts with a fetch of page 2, and no earlier page is
fetched. -/
theorem claim_C2_witness :
    save_scraping_state exDate 2 = "2024-01-01,2" ∧
    ((pagesFetched (crawlLoop exFetchPages4 exDate
        (initCrawlState [] (some "2024-01-01,2")) 2 5).2).all
          (fun q => decide (2 ≤ q))) = true ∧
    ((crawlLoop exFetchPages4 exDate
        (initCrawlState [] (some "2024-01-01,2")) 2 5).2).head? =
      some (Ev.fetchAttempt 2) := by
  have h := claim_C2_resume_at_last_completed exFetchPages4 [] "2024-01-01,2"
    exDate exDate 2 4 (by decide)
  exact ⟨by decide, h.2.2.1, h.2.2.2.1⟩

/-- Claim C4, corrected. The claim as stated is false: in `getlinks_final.py`
no browser-session recreation and no extra attempt ever happens after the
retry budget (see `claim_C4_counterexample`); in `getlinks_1.py` the session
is recreated after each failed attempt *within* the budget, not after it.
What holds: when every attempt at page `p` fails, the final controller makes
exactly `MAX_RETRIES = 3` attempts separated by the fixed
`PAGE_LOAD_DELAY`, then abandons the window with its state — including the
last durable checkpoint — completely untouched; the run itself returns
normally (the exception is caught, the process does not crash); and the older
controller makes its 3 attempts with a session recreation and a 5-second
sleep after each failed non-final attempt, then abandons likewise. -/
theorem claim_C4_bounded_retry_then_abandon
    (fetch : Nat → Nat → Option (List String)) (d : DateTime) (s : CrawlState)
    (ls : LinkState) (f₀ : List String) (p fuel : Nat)
    (h0 : fetch p 0 = none) (h1 : fetch p 1 = none) (h2 : fetch p 2 = none) :
    crawlLoop fetch d s p (fuel + 1) =
      (s, [Ev.fetchAttempt p, Ev.sleepSec PAGE_LOAD_DELAY, Ev.fetchAttempt p,
        Ev.sleepSec PAGE_LOAD_DELAY, Ev.fetchAttempt p, Ev.abandoned]) ∧
    crawlOk (getLinks fetch f₀ none d (fuel + 1)) = true ∧
    scrape_date_range fetch ls p (fuel + 1) =
      (ls, [Ev.fetchAttempt p, Ev.recreateSession, Ev.sleepSec 5,
        Ev.fetchAttempt p, Ev.recreateSession, Ev.sleepSec 5,
        Ev.fetchAttempt p, Ev.abandoned]) := by
  have hretry : retryPage fetch p =
      (none, [Ev.fetchAttempt p, Ev.sleepSec PAGE_LOAD_DELAY, Ev.fetchAttempt p,
        Ev.sleepSec PAGE_LOAD_DELAY, Ev.fetchAttempt p]) := by
    simp [retryPage, MAX_RETRIES, attemptPage, h0, h1, h2]
  have hretry1 : retryPageG1 fetch p 0 3 =
      (none, [Ev.fetchAttempt p, Ev.recreateSession, Ev.sleepSec 5,
        Ev.fetchAttempt p, Ev.recreateSession, Ev.sleepSec 5,
        Ev.fetchAttempt p]) := by
    simp [retryPageG1, h0, h1, h2]
  refine ⟨?_, ?_, ?_⟩
  · simp [crawlLoop, hretry]
  · simp [getLinks, load_scraping_state, crawlOk]
  · simp [scrape_date_range, hretry1]

/-- Counterexample to claim C4 as stated: when all attempts at page 0 fail,
`getlinks_final.py` makes exactly 3 fetch attempts and abandons — it never
recreates the browser session and never makes the claimed additional
post-budget attempt at the same page. -/
theorem claim_C4_counterexample :
    Ev.recreateSession ∉ (crawlLoop exFetchFail exDate (initCrawlState [] none) 0 5).2 ∧
    (pagesFetched (crawlLoop exFetchFail exDate (initCrawlState [] none) 0 5).2).length = 3 ∧
    Ev.abandoned ∈ (crawlLoop exFetchFail exDate (initCrawlState [] none) 0 5).2 := by
  decide

/-- Witness for the corrected claim C4, at the always-failing fetch oracle. -/
theorem claim_C4_witness :
    crawlLoop exFetchFail exDate (initCrawlState [] none) 0 1 =
      (initCrawlState [] none,
        [Ev.fetchAttempt 0, Ev.sleepSec PAGE_LOAD_DELAY, Ev.fetchAttempt 0,
          Ev.sleepSec PAGE_LOAD_DELAY, Ev.fetchAttempt 0, Ev.abandoned]) ∧
    crawlOk (getLinks exFetchFail [] none exDate 1) = true ∧
    scrape_date_range exFetchFail ⟨[], []⟩ 0 1 =
      (⟨[], []⟩,
        [Ev.fetchAttempt 0, Ev.recreateSession, Ev.sleepSec 5,
          Ev.fetchAttempt 0, Ev.recreateSession, Ev.sleepSec 5,
          Ev.fetchAttempt 0, Ev.abandoned]) :=
  claim_C4_bounded_retry_then_abandon exFetchFail exDate (initCrawlState [] none)
    ⟨[], []⟩ [] 0 0 (by decide) (by decide) (by decide)

/-- Claim C10: if the checkpoint file exists but its content is malformed
(not a `YYYY-MM-DD,int` line, i.e. `parseStateLine` rejects it), the
`ValueError` from `load_scraping_state` propagates out of `getLinks` before
the pagination loop runs — the run aborts with no page fetched — whereas an
absent checkpoint file falls back to starting the window at page 0. -/
theorem claim_C10_malformed_checkpoint_aborts
    (fetch : Nat → Nat → Option (List String)) (f₀ : List String) (c : String)
    (d : DateTime) (fuel : Nat)
    (hbad : parseStateLine c = none) :
    getLinks fetch f₀ (some c) d fuel = Except.error () ∧
    crawlEvsOf (getLinks fetch f₀ (some c) d fuel) = [] ∧
    getLinks fetch f₀ none d fuel =
      Except.ok (crawlLoop fetch d (initCrawlState f₀ none) 0 fuel) := by
  have herr : load_scraping_state (some c) = Except.error () := by
    simp [load_scraping_state, hbad]
  refine ⟨?_, ?_, ?_⟩
  · simp [getLinks, herr]
  · simp [getLinks, herr, crawlEvsOf]
  · simp [getLinks, load_scraping_state]

/-- Witness for claim C10 on the content `"garbage"`: the run errors out with
an empty trace, while the absent-file run proceeds from page 0. -/
theorem claim_C10_witness :
    getLinks exFetchPages2 [] (some "garbage") exDate 3 = Except.error () ∧
    crawlEvsOf (getLinks exFetchPages2 [] (some "garbage") exDate 3) = [] ∧
    getLinks exFetchPages2 [] none exDate 3 =
      Except.ok (crawlLoop exFetchPages2 exDate (initCrawlState [] none) 0 3) :=
  claim_C10_malformed_checkpoint_aborts exFetchPages2 [] "garbage" exDate 3
    (by decide)

/-! ## Content-store theorems -/

theorem string_length_append (s t : String) :
    (s ++ t).length = s.length + t.length :=
  String.length_append s t

/-- The serialization with an embedded hash is strictly longer than the
hash-free serialization of the same record, so the two uploads of
`save_and_upload` always receive different bytes and obtain different
addresses. -/
theorem serializeFormatted_hash_ne (r : FormattedData) (h : String)
    (hr : r.ipfs_hash = none) :
    serializeFormatted r ≠ serializeFormatted { r with ipfs_hash := some h } := by
  intro he
  have hcore : serializeCore { r with ipfs_hash := some h } = serializeCore r := rfl
  have hl := congrArg String.length he
  rw [serializeFormatted, serializeFormatted, hcore, hr] at hl
  simp only [string_length_append] at hl
  have e1 : ("" : String).length = 0 := rfl
  have e2 : (";ipfs_hash:" : String).length = 11 := rfl
  rw [e1, e2] at hl
  omega

/-- Claim C1: for every record stored through `save_and_upload`'s two-phase
sequence (both uploads succeeding), the record retrievable under the returned
address `addr2` carries a self-reported `ipfs_hash` field equal to `addr1` —
the address of the first, hash-free upload — and not `addr2`
(`addr1 ≠ addr2`); `addr2` is the address that is pinned and returned, and
`addr1` is discarded (the pin set gains only `addr2`). -/
theorem claim_C1_two_phase_addressing (store : IpfsStore)
    (patent_data : PatentInfo) (patent_number : String) :
    (save_and_upload true true store patent_data patent_number).1 =
      twoPhaseFinal patent_data patent_number ∧
    ipfsCat (save_and_upload true true store patent_data patent_number).2.1
        (twoPhaseFinal patent_data patent_number) =
      some (twoPhaseRecord patent_data patent_number) ∧
    (twoPhaseRecord patent_data patent_number).ipfs_hash =
      some (twoPhaseFirst patent_data patent_number) ∧
    twoPhaseFirst patent_data patent_number ≠
      twoPhaseFinal patent_data patent_number ∧
    (save_and_upload true true store patent_data patent_number).2.1.pins =
      twoPhaseFinal patent_data patent_number :: store.pins := by
  refine ⟨rfl, ?_, rfl, ?_, rfl⟩
  · have hobj : (save_and_upload true true store patent_data patent_number).2.1.objects =
        (twoPhaseFinal patent_data patent_number,
          twoPhaseRecord patent_data patent_number) ::
          (twoPhaseFirst patent_data patent_number,
            toFormatted patent_data patent_number) :: store.objects := rfl
    have hfind : List.find? (fun e => e.1 == twoPhaseFinal patent_data patent_number)
        ((twoPhaseFinal patent_data patent_number,
            twoPhaseRecord patent_data patent_number) ::
          (twoPhaseFirst patent_data patent_number,
            toFormatted patent_data patent_number) :: store.objects) =
        some (twoPhaseFinal patent_data patent_number,
          twoPhaseRecord patent_data patent_number) := by
      apply List.find?_cons_of_pos
      exact beq_self_eq_true _
    rw [ipfsCat, hobj, hfind]
    rfl
  · exact serializeFormatted_hash_ne (toFormatted patent_data patent_number) _ rfl

/-! ## Ingestion-orchestrator theorems -/

/-- Claim C7: an identifier whose local durable JSON already exists at the
start of its processing is skipped: the iteration performs no extraction
call, no embedding/vector-index call and no content-store call, and leaves
both the local files and the content store unchanged — so re-running over the
same input is idempotent. -/
theorem claim_C7_skip_existing (localFiles : List String) (store : IpfsStore)
    (patent_number url : String) (urlMatch : Option String)
    (pageFetch : Option Page) (chromaOk ok1 ok2 : Bool)
    (h : jsonPath patent_number ∈ localFiles) :
    processUrl localFiles store patent_number url urlMatch pageFetch
        chromaOk ok1 ok2 =
      (localFiles, store, [WEv.skipExisting patent_number]) := by
  simp [processUrl, h]

/-- Witness for claim C7: re-processing `US1` with its JSON present touches
nothing. -/
theorem claim_C7_witness :
    jsonPath "US1" ∈ [jsonPath "US1"] ∧
    processUrl [jsonPath "US1"] ⟨[], []⟩ "US1" "u" (some "US1") (some exPage)
        true true true =
      ([jsonPath "US1"], ⟨[], []⟩, [WEv.skipExisting "US1"]) :=
  ⟨by decide,
    claim_C7_skip_existing [jsonPath "US1"] ⟨[], []⟩ "US1" "u" (some "US1")
      (some exPage) true true true (by decide)⟩

/-- Claim C8: extraction returns no record exactly when the page cannot be
fetched/rendered; on a rendered page each individually missing field (title,
abstract, inventor, assignee, filing date) degrades to the `'N/A'` sentinel
and never causes a failure, and the assignee tries the current assignee,
falls back to the original assignee, and otherwise uses the sentinel. -/
theorem claim_C8_extraction_sentinels (fetched : Option Page) (pg : Page)
    (r : RawPatent) (a b : String)
    (hr : clean_html_content (some pg) = some r) :
    (clean_html_content fetched = none ↔ fetched = none) ∧
    (pg.title = none → r.patent_title = "N/A") ∧
    (pg.abstract = none → r.abstract = "N/A") ∧
    (pg.inventor = none → r.inventor_name = "N/A") ∧
    (pg.filingDate = none → r.filing_date = "N/A") ∧
    (pg.assigneeCurrent = some a → r.assignee_name = trimS a) ∧
    (pg.assigneeCurrent = none → pg.assigneeOriginal = some b →
      r.assignee_name = trimS b) ∧
    (pg.assigneeCurrent = none → pg.assigneeOriginal = none →
      r.assignee_name = "N/A") := by
  have hrec : r =
      { patent_title := match pg.title with | some t => trimS t | none => "N/A"
        abstract := match pg.abstract with | some t => trimS t | none => "N/A"
        inventor_name := match pg.inventor with | some t => trimS t | none => "N/A"
        assignee_name :=
          match pg.assigneeCurrent with
          | some t => trimS t
          | none =>
            match pg.assigneeOriginal with
            | some t => trimS t
            | none => "N/A"
        filing_date := match pg.filingDate with | some t => trimS t | none => "N/A"
        claims_text := pg.claims.map normalizeText
        patent_text := normalizeText pg.fullText } := by
    have h' := hr
    simp only [clean_html_content] at h'
    exact (Option.some_inj.mp h').symm
  refine ⟨?_, ?_, ?_, ?_, ?_, ?_, ?_, ?_⟩
  · cases fetched with
    | none => simp [clean_html_content]
    | some q => simp [clean_html_content]
  · intro h; rw [hrec]; simp [h]
  · intro h; rw [hrec]; simp [h]
  · intro h; rw [hrec]; simp [h]
  · intro h; rw [hrec]; simp [h]
  · intro h; rw [hrec]; simp [h]
  · intro h h'; rw [hrec]; simp [h, h']
  · intro h h'; rw [hrec]; simp [h, h']

/-- Witness for claim C8 on a page with no title and no current assignee:
the title degrades to the sentinel and the assignee falls back to the
original assignee. -/
theorem claim_C8_witness :
    (clean_html_content none = none ↔ (none : Option Page) = none) ∧
    (exPage.title = none →
      (⟨"N/A", "An abstract", "Ada", "Acme Corp", "2020-01-01",
        some "1. A widget.", "Body text"⟩ : RawPatent).patent_title = "N/A") ∧
    (exPage.abstract = none →
      (⟨"N/A", "An abstract", "Ada", "Acme Corp", "2020-01-01",
        some "1. A widget.", "Body text"⟩ : RawPatent).abstract = "N/A") ∧
    (exPage.inventor = none →
      (⟨"N/A", "An abstract", "Ada", "Acme Corp", "2020-01-01",
        some "1. A widget.", "Body text"⟩ : RawPatent).inventor_name = "N/A") ∧
    (exPage.filingDate = none →
      (⟨"N/A", "An abstract", "Ada", "Acme Corp", "2020-01-01",
        some "1. A widget.", "Body text"⟩ : RawPatent).filing_date = "N/A") ∧
    (exPage.assigneeCurrent = some "x" →
      (⟨"N/A", "An abstract", "Ada", "Acme Corp", "2020-01-01",
        some "1. A widget.", "Body text"⟩ : RawPatent).assignee_name = trimS "x") ∧
    (exPage.assigneeCurrent = none → exPage.assigneeOriginal = some "Acme Corp" →
      (⟨"N/A", "An abstract", "Ada", "Acme Corp", "2020-01-01",
        some "1. A widget.", "Body text"⟩ : RawPatent).assignee_name =
        trimS "Acme Corp") ∧
    (exPage.assigneeCurrent = none → exPage.assigneeOriginal = none →
      (⟨"N/A", "An abstract", "Ada", "Acme Corp", "2020-01-01",
        some "1. A widget.", "Body text"⟩ : RawPatent).assignee_name = "N/A") :=
  claim_C8_extraction_sentinels none exPage
    ⟨"N/A", "An abstract", "Ada", "Acme Corp", "2020-01-01",
      some "1. A widget.", "Body text"⟩ "x" "Acme Corp" (by decide)

/-- Claim C9, corrected. The claim as stated is false: on the success path the
local JSON file is written twice with different contents — once by the
orchestrator before the remote calls, and once more by `save_and_upload`,
which rewrites the same path with the record enriched with the content
address (see `claim_C9_counterexample`). What holds: on first processing the
orchestrator writes `patent_json/{id}.json` once with the extracted record
before any remote call; if the two-phase content-store upload succeeds,
`save_and_upload` overwrites that same path exactly once with the formatted
record carrying `ipfs_hash = addr1`; if either upload fails (or the
embed/index stage throws), the first write remains the only one; and a re-run
over an identifier whose file exists performs no write at all. -/
theorem claim_C9_local_file_rewritten (localFiles : List String)
    (store : IpfsStore) (patent_number url : String) (urlMatch : Option String)
    (pg : Page) (pd0 : PatentInfo)
    (hnew : jsonPath patent_number ∉ localFiles)
    (hx : extract_patent_info_with_llm url urlMatch (some pg) = some pd0) :
    localWritesOf (processUrl localFiles store patent_number url urlMatch
        (some pg) true true true).2.2 =
      [(jsonPath patent_number,
          serializePatentInfo { pd0 with publication_number := patent_number }),
        (jsonPath patent_number,
          serializeFormatted (twoPhaseRecord
            { pd0 with publication_number := patent_number } patent_number))] ∧
    localWritesOf (processUrl localFiles store patent_number url urlMatch
        (some pg) true true false).2.2 =
      [(jsonPath patent_number,
          serializePatentInfo { pd0 with publication_number := patent_number })] ∧
    localWritesOf (processUrl localFiles store patent_number url urlMatch
        (some pg) true false true).2.2 =
      [(jsonPath patent_number,
          serializePatentInfo { pd0 with publication_number := patent_number })] ∧
    localWritesOf (processUrl localFiles store patent_number url urlMatch
        (some pg) false true true).2.2 =
      [(jsonPath patent_number,
          serializePatentInfo { pd0 with publication_number := patent_number })] ∧
    localWritesOf (processUrl (localFiles ++ [jsonPath patent_number]) store
        patent_number url urlMatch (some pg) true true true).2.2 = [] := by
  refine ⟨?_, ?_, ?_, ?_, ?_⟩
  · simp [processUrl, hnew, hx, save_and_upload, twoPhaseRecord, twoPhaseFirst,
      ipfsAdd, localWritesOf]
  · simp [processUrl, hnew, hx, save_and_upload, ipfsAdd, localWritesOf]
  · simp [processUrl, hnew, hx, save_and_upload, ipfsAdd, localWritesOf]
  · simp [processUrl, hnew, hx, localWritesOf]
  · simp [processUrl, localWritesOf]

/-- Counterexample to claim C9 as stated: processing a fresh identifier with
all stages succeeding writes `patent_json/US1.json` twice, with two different
contents (the second carries the `ipfs_hash` field) — the content-store stage
does not leave the already-written local file unchanged. -/
theorem claim_C9_counterexample :
    (localWritesOf (processUrl [] ⟨[], []⟩ "US1" "u" (some "US1") (some exPage)
        true true true).2.2).map Prod.fst = [jsonPath "US1", jsonPath "US1"] ∧
    (localWritesOf (processUrl [] ⟨[], []⟩ "US1" "u" (some "US1") (some exPage)
        true true true).2.2).get? 0 ≠
      (localWritesOf (processUrl [] ⟨[], []⟩ "US1" "u" (some "US1") (some exPage)
        true true true).2.2).get? 1 := by
  decide

/-- Witness for the corrected claim C9, at a concrete fresh identifier. -/
theorem claim_C9_witness :
    localWritesOf (processUrl [] ⟨[], []⟩ "US1" "u" (some "US1") (some exPage)
        true true true).2.2 =
      [(jsonPath "US1",
          serializePatentInfo
            { extractedExPage with publication_number := "US1" }),
        (jsonPath "US1",
          serializeFormatted (twoPhaseRecord
            { extractedExPage with publication_number := "US1" } "US1"))] ∧
    localWritesOf (processUrl [] ⟨[], []⟩ "US1" "u" (some "US1") (some exPage)
        true true false).2.2 =
      [(jsonPath "US1",
          serializePatentInfo
            { extractedExPage with publication_number := "US1" })] ∧
    localWritesOf (processUrl [] ⟨[], []⟩ "US1" "u" (some "US1") (some exPage)
        true false true).2.2 =
      [(jsonPath "US1",
          serializePatentInfo
            { extractedExPage with publication_number := "US1" })] ∧
    localWritesOf (processUrl [] ⟨[], []⟩ "US1" "u" (some "US1") (some exPage)
        false true true).2.2 =
      [(jsonPath "US1",
          serializePatentInfo
            { extractedExPage with publication_number := "US1" })] ∧
    localWritesOf (processUrl ([] ++ [jsonPath "US1"]) ⟨[], []⟩ "US1" "u"
        (some "US1") (some exPage) true true true).2.2 = [] := by
  have h := claim_C9_local_file_rewritten [] ⟨[], []⟩ "US1" "u" (some "US1")
    exPage extractedExPage (by decide) (by decide)
  exact ⟨h.1, h.2.1, h.2.2.1, h.2.2.2.1, h.2.2.2.2⟩
